import Mathlib

/-!
# Verification of belowdeck's Device Lifecycle Manager and Coordinator

Shallow embedding of the core of the `phinze/belowdeck` repository
(Stream Deck daemon): the module resource model (`internal/module`),
the Coordinator (`internal/coordinator/coordinator.go`), the GitHub
module's overlay state machine (`internal/modules/github/render.go`),
and the device-acquisition path of `cmd/belowdeck` (the current version
of `main.go`, which carries the `enumInFlight` single-flight guard and
the late-result cleanup goroutine).

Go maps are modelled as total functions with a zero-value default (as Go
map reads behave); Go map iteration over a module's returned image map is
modelled as the order of an association list; handlers that may return a
Go `error` are modelled by boolean-valued error functions in `ModuleSpec`;
side-effecting calls are reified into a `Call` trace so that theorems can
speak about which module methods and device operations are invoked, and
in which order.
-/

namespace Belowdeck

/-- A point on the touch strip, from Go's `image.Point`. -/
structure Point where
  x : Int
  y : Int
deriving DecidableEq, Repr

/-- A rectangle, from Go's `image.Rectangle` (min/max corner coordinates). -/
structure Rect where
  minX : Int
  minY : Int
  maxX : Int
  maxY : Int
deriving DecidableEq, Repr

/-- Go `image.Rectangle.Empty`: a rectangle with no interior points. -/
def Rect.Empty (r : Rect) : Bool :=
  r.minX ≥ r.maxX || r.minY ≥ r.maxY

/-- The Go zero `image.Rectangle`. -/
def Rect.zero : Rect := ⟨0, 0, 0, 0⟩

/-- Images pushed to the device.  `black r` is `image.NewRGBA(r)` (an
all-zero, hence black, image); `pic n` is an opaque module-produced image;
`composite parts` is the strip composite built by `renderStrip` by drawing
the listed images over each other in order. -/
inductive Image where
  | black (r : Rect)
  | pic (n : Nat)
  | composite (parts : List Image)

namespace Module

/-- Go `module.KeyID`: Stream Deck Plus keys `Key1 = 1` .. `Key8 = 8`. -/
abbrev KeyID := Nat

/-- Go `module.DialID`: Stream Deck Plus dials `Dial1 = 1` .. `Dial4 = 4`. -/
abbrev DialID := Nat

def Key1 : KeyID := 1
def Key2 : KeyID := 2
def Key3 : KeyID := 3
def Key4 : KeyID := 4
def Key5 : KeyID := 5
def Key6 : KeyID := 6
def Key7 : KeyID := 7
def Key8 : KeyID := 8

def Dial1 : DialID := 1
def Dial2 : DialID := 2
def Dial3 : DialID := 3
def Dial4 : DialID := 4

/-- Go `module.Resources`: the hardware grant given to a module
(`internal/module/resources.go`). -/
structure Resources where
  Keys : List KeyID
  StripRect : Rect
  Dials : List DialID
deriving DecidableEq, Repr

/-- The Go zero value of `module.Resources` (what a map read returns for
an unregistered module). -/
def Resources.zero : Resources := ⟨[], Rect.zero, []⟩

/-- Go `Resources.HasStrip`: true when the strip rectangle is non-empty. -/
def Resources.HasStrip (r : Resources) : Bool :=
  !r.StripRect.Empty

/-- Go `Resources.HasKeys`. -/
def Resources.HasKeys (r : Resources) : Bool :=
  r.Keys.length > 0

/-- Go `Resources.HasDials`. -/
def Resources.HasDials (r : Resources) : Bool :=
  r.Dials.length > 0

/-- Go `Resources.OwnsKey`. -/
def Resources.OwnsKey (r : Resources) (key : KeyID) : Bool :=
  r.Keys.contains key

/-- Go `Resources.OwnsDial`. -/
def Resources.OwnsDial (r : Resources) (dial : DialID) : Bool :=
  r.Dials.contains dial

/-- Go `module.KeyEvent`: `Pressed` plus a hold `Duration` (only meaningful
on release; Go durations are modelled in milliseconds as `Nat`; the Go
zero value `0` is what a press event carries). -/
structure KeyEvent where
  Pressed : Bool
  Duration : Nat
deriving DecidableEq, Repr

/-- Go `module.DialEventType` (Go field name `Type` is a Lean keyword, so
the event-type field below is spelled `Typ`). -/
inductive DialEventType where
  | DialRotate
  | DialPress
  | DialRelease
deriving DecidableEq, Repr

/-- Go `module.DialEvent`. -/
structure DialEvent where
  Typ : DialEventType
  Delta : Int
  Duration : Nat
deriving DecidableEq, Repr

/-- Go `module.TouchStripEventType`. -/
inductive TouchStripEventType where
  | TouchTap
  | TouchLongTap
  | TouchSwipe
deriving DecidableEq, Repr

/-- Go `module.TouchStripEvent`. -/
structure TouchStripEvent where
  Typ : TouchStripEventType
  Point : Belowdeck.Point
  SwipeStart : Belowdeck.Point
  SwipeEnd : Belowdeck.Point
deriving DecidableEq, Repr

/-- Go `module.TouchStripEventFromSwipe`. -/
def TouchStripEventFromSwipe (origin dest : Point) : TouchStripEvent :=
  { Typ := .TouchSwipe, Point := origin, SwipeStart := origin, SwipeEnd := dest }

end Module

/-- The behaviour of one registered module, as the Coordinator observes it.
Modules are identified by a natural-number index into an environment list.
`initErr` says whether `Init` returns a non-nil error; `overlayProvider`
is the `m.(module.OverlayProvider)` type assertion; `overlayActive` is
the result of `IsOverlayActive()`; the `...Err` functions say whether the
corresponding handler returns a non-nil error for a given event; the
`render...` fields are the image maps/images the module's render methods
return (a Go map modelled as an association list in iteration order,
`none` for a nil image). -/
structure ModuleSpec where
  initErr : Bool
  overlayProvider : Bool
  overlayActive : Bool
  handleKeyErr : Module.KeyID → Module.KeyEvent → Bool
  handleDialErr : Module.DialID → Module.DialEvent → Bool
  handleStripTouchErr : Module.TouchStripEvent → Bool
  handleOverlayKeyErr : Module.KeyID → Module.KeyEvent → Bool
  handleOverlayDialErr : Module.DialID → Module.DialEvent → Bool
  handleOverlayStripTouchErr : Module.TouchStripEvent → Bool
  renderKeys : List (Module.KeyID × Option Image)
  renderStrip : Option Image
  renderOverlayKeys : List (Module.KeyID × Option Image)
  renderOverlayStrip : Option Image
  stopErr : Bool

/-- The Go zero behaviour: `Init` succeeds, not an overlay provider,
no handler errors, nothing rendered. -/
def ModuleSpec.default : ModuleSpec where
  initErr := false
  overlayProvider := false
  overlayActive := false
  handleKeyErr := fun _ _ => false
  handleDialErr := fun _ _ => false
  handleStripTouchErr := fun _ => false
  handleOverlayKeyErr := fun _ _ => false
  handleOverlayDialErr := fun _ _ => false
  handleOverlayStripTouchErr := fun _ => false
  renderKeys := []
  renderStrip := none
  renderOverlayKeys := []
  renderOverlayStrip := none
  stopErr := false

/-- Look a module up in the environment (out-of-range indices behave as
the zero module; theorems only ever use in-range indices). -/
def specAt (env : List ModuleSpec) (i : Nat) : ModuleSpec :=
  env.getD i ModuleSpec.default

/-- One observable action of the Coordinator: a module method being
invoked, a device-level wait, or an image push to the device. -/
inductive Call where
  | handleKey (m : Nat) (id : Module.KeyID) (ev : Module.KeyEvent)
  | handleOverlayKey (m : Nat) (id : Module.KeyID) (ev : Module.KeyEvent)
  | handleDial (m : Nat) (id : Module.DialID) (ev : Module.DialEvent)
  | handleOverlayDial (m : Nat) (id : Module.DialID) (ev : Module.DialEvent)
  | handleStripTouch (m : Nat) (ev : Module.TouchStripEvent)
  | handleOverlayStripTouch (m : Nat) (ev : Module.TouchStripEvent)
  | waitForRelease (id : Module.KeyID) (dur : Nat)
  | dialWaitForRelease (id : Module.DialID) (dur : Nat)
  | renderKeysCall (m : Nat)
  | renderStripCall (m : Nat)
  | renderOverlayKeysCall (m : Nat)
  | renderOverlayStripCall (m : Nat)
  | setKeyImage (id : Module.KeyID) (img : Image)
  | setStripImage (img : Image)
  | cancelCtx
  | stopCall (m : Nat)

/-- The device as the Coordinator sees it (`internal/device.Device`):
`GetKeyImageRectangle` and `GetTouchStripImageRectangle` may fail, hence
`Option`. -/
structure Device where
  keyRect : Option Rect
  stripSupported : Bool
  stripRectDev : Option Rect

/-- The Coordinator's state (`coordinator.Coordinator`).  Go maps are
total functions (zero-value default); `failedModules` is the set of
modules marked failed at `Init` (a grow-only map of booleans, modelled
as the list of indices inserted); `cancelSet` records that `Start` has
derived the cancellable context. -/
structure Coordinator where
  modules : List Nat
  moduleResources : Nat → Module.Resources
  keyOwners : Module.KeyID → Option Nat
  dialOwners : Module.DialID → Option Nat
  failedModules : List Nat
  stripRect : Rect
  cancelSet : Bool
  overlayWasActive : Bool

/-- Go `coordinator.New`. -/
def Coordinator.New : Coordinator where
  modules := []
  moduleResources := fun _ => Module.Resources.zero
  keyOwners := fun _ => none
  dialOwners := fun _ => none
  failedModules := []
  stripRect := Rect.zero
  cancelSet := false
  overlayWasActive := false

/-- A single Go map write `owners[id] = m`. -/
def setOwner (f : Nat → Option Nat) (id m : Nat) : Nat → Option Nat :=
  fun k => if k = id then some m else f k

/-- Go `Coordinator.RegisterModule`: store the resource grant, write every
granted key and dial into the ownership maps (overwriting any previous
owner), append the module, and return a nil error. -/
def Coordinator.RegisterModule (c : Coordinator) (m : Nat) (res : Module.Resources) :
    Coordinator × Option Unit :=
  ({ c with
      moduleResources := fun j => if j = m then res else c.moduleResources j
      keyOwners := res.Keys.foldl (fun f key => setOwner f key m) c.keyOwners
      dialOwners := res.Dials.foldl (fun f dial => setOwner f dial m) c.dialOwners
      modules := c.modules ++ [m] },
   none)

/-- Go `Coordinator.resourcesForModule`. -/
def Coordinator.resourcesForModule (c : Coordinator) (m : Nat) : Module.Resources :=
  c.moduleResources m

/-- The Go map read `c.failedModules[m]`. -/
def Coordinator.isFailed (c : Coordinator) (m : Nat) : Bool :=
  c.failedModules.contains m

/-- The `Init` loop of `Coordinator.Start` (coordinator.go:93-100):
every registered module is initialized in registration order; the ones
whose `Init` errors are added to `failedModules` (continue-on-error). -/
def Coordinator.startInits (env : List ModuleSpec) (c : Coordinator) : Coordinator :=
  { c with
      failedModules :=
        c.modules.foldl
          (fun acc i => if (specAt env i).initErr then acc ++ [i] else acc)
          c.failedModules }

/-- The strip-geometry capture of `Coordinator.Start` (coordinator.go:86-91)
together with the derived-context creation (coordinator.go:83). -/
def Coordinator.startSetup (dev : Device) (env : List ModuleSpec) (c : Coordinator) :
    Coordinator :=
  let c1 := { c with cancelSet := true }
  let c2 :=
    if dev.stripSupported then
      match dev.stripRectDev with
      | some r => { c1 with stripRect := r }
      | none => c1
    else c1
  c2.startInits env

/-- Go `Coordinator.getActiveOverlay`: the first registered, non-failed
module that is an overlay provider and reports an active overlay. -/
def Coordinator.getActiveOverlay (c : Coordinator) (env : List ModuleSpec) : Option Nat :=
  c.modules.find? fun i =>
    !c.isFailed i && ((specAt env i).overlayProvider && (specAt env i).overlayActive)

/-- Go `Coordinator.Stop`: cancel the derived context (when `Start` created
one), call `Stop` on every registered module in registration order with
each result discarded, and return nil. -/
def Coordinator.Stop (c : Coordinator) : List Call × Option Unit :=
  ((if c.cancelSet then [Call.cancelCtx] else []) ++ c.modules.map Call.stopCall, none)

/-- The key handler closure installed for key `key` in
`setupEventHandlers` (coordinator.go:173-200), with `holdDur` the value
`k.WaitForRelease()` returns.  Overlay active: press sub-event to the
overlay, then (if that call returned nil) wait for release and send the
release sub-event with the hold duration.  No overlay: same protocol to
the key's owner, dropped when the key is unowned or its owner failed. -/
def Coordinator.dispatchKey (c : Coordinator) (env : List ModuleSpec)
    (key : Module.KeyID) (holdDur : Nat) : List Call × Option Unit :=
  let pressEv : Module.KeyEvent := ⟨true, 0⟩
  let relEv : Module.KeyEvent := ⟨false, holdDur⟩
  match c.getActiveOverlay env with
  | some ov =>
      if (specAt env ov).handleOverlayKeyErr key pressEv then
        ([Call.handleOverlayKey ov key pressEv], some ())
      else
        ([Call.handleOverlayKey ov key pressEv, Call.waitForRelease key holdDur,
          Call.handleOverlayKey ov key relEv],
         if (specAt env ov).handleOverlayKeyErr key relEv then some () else none)
  | none =>
      match c.keyOwners key with
      | none => ([], none)
      | some owner =>
          if c.isFailed owner then ([], none)
          else if (specAt env owner).handleKeyErr key pressEv then
            ([Call.handleKey owner key pressEv], some ())
          else
            ([Call.handleKey owner key pressEv, Call.waitForRelease key holdDur,
              Call.handleKey owner key relEv],
             if (specAt env owner).handleKeyErr key relEv then some () else none)

/-- The dial rotation handler closure (coordinator.go:208-222). -/
def Coordinator.dispatchDialRotate (c : Coordinator) (env : List ModuleSpec)
    (dial : Module.DialID) (delta : Int) : List Call × Option Unit :=
  let event : Module.DialEvent := ⟨.DialRotate, delta, 0⟩
  match c.getActiveOverlay env with
  | some ov =>
      ([Call.handleOverlayDial ov dial event],
       if (specAt env ov).handleOverlayDialErr dial event then some () else none)
  | none =>
      match c.dialOwners dial with
      | none => ([], none)
      | some owner =>
          if c.isFailed owner then ([], none)
          else
            ([Call.handleDial owner dial event],
             if (specAt env owner).handleDialErr dial event then some () else none)

/-- The dial press handler closure (coordinator.go:229-255), with
`holdDur` the value `di.WaitForRelease()` returns: `DialPress` then,
if the press call returned nil, `DialRelease` with the hold duration. -/
def Coordinator.dispatchDialSwitch (c : Coordinator) (env : List ModuleSpec)
    (dial : Module.DialID) (holdDur : Nat) : List Call × Option Unit :=
  let pressEv : Module.DialEvent := ⟨.DialPress, 0, 0⟩
  let relEv : Module.DialEvent := ⟨.DialRelease, 0, holdDur⟩
  match c.getActiveOverlay env with
  | some ov =>
      if (specAt env ov).handleOverlayDialErr dial pressEv then
        ([Call.handleOverlayDial ov dial pressEv], some ())
      else
        ([Call.handleOverlayDial ov dial pressEv, Call.dialWaitForRelease dial holdDur,
          Call.handleOverlayDial ov dial relEv],
         if (specAt env ov).handleOverlayDialErr dial relEv then some () else none)
  | none =>
      match c.dialOwners dial with
      | none => ([], none)
      | some owner =>
          if c.isFailed owner then ([], none)
          else if (specAt env owner).handleDialErr dial pressEv then
            ([Call.handleDial owner dial pressEv], some ())
          else
            ([Call.handleDial owner dial pressEv, Call.dialWaitForRelease dial holdDur,
              Call.handleDial owner dial relEv],
             if (specAt env owner).handleDialErr dial relEv then some () else none)

/-- Go `Coordinator.routeStripEvent`: dispatch to the first registered,
non-failed module holding a non-empty strip allocation. -/
def Coordinator.routeStripEvent (c : Coordinator) (env : List ModuleSpec)
    (ev : Module.TouchStripEvent) : List Call × Option Unit :=
  match c.modules.find? (fun i => !c.isFailed i && (c.resourcesForModule i).HasStrip) with
  | some m =>
      ([Call.handleStripTouch m ev],
       if (specAt env m).handleStripTouchErr ev then some () else none)
  | none => ([], none)

/-- The touch/swipe strip handler closures (coordinator.go:260-276):
an active overlay takes the event exclusively, otherwise it is routed
by `routeStripEvent`. -/
def Coordinator.dispatchStripTouch (c : Coordinator) (env : List ModuleSpec)
    (ev : Module.TouchStripEvent) : List Call × Option Unit :=
  match c.getActiveOverlay env with
  | some ov =>
      ([Call.handleOverlayStripTouch ov ev],
       if (specAt env ov).handleOverlayStripTouchErr ev then some () else none)
  | none => c.routeStripEvent env ev

/-- The eight physical keys (`allKeys` in the source). -/
def allKeys : List Module.KeyID := [1, 2, 3, 4, 5, 6, 7, 8]

/-- The four physical dials (`allDials` in the source). -/
def allDials : List Module.DialID := [1, 2, 3, 4]

/-- Push every non-nil image of a returned key-image map
(`for keyID, img := range keyImages { if img != nil { SetKeyImage } }`). -/
def pushKeyImages (imgs : List (Module.KeyID × Option Image)) : List Call :=
  imgs.filterMap fun p =>
    match p.2 with
    | some img => some (Call.setKeyImage p.1 img)
    | none => none

/-- Go `Coordinator.clearAllKeys` (coordinator.go:414-430): when the key
geometry query succeeds, push a fresh all-black image to all eight keys;
when it fails, do nothing. -/
def Coordinator.clearAllKeys (dev : Device) : List Call :=
  match dev.keyRect with
  | none => []
  | some r => allKeys.map fun k => Call.setKeyImage k (Image.black r)

/-- Go `Coordinator.renderKeys` (coordinator.go:319-358).  The leading loop
over modules (skip failed, first overlay provider with an active overlay
wins) is `getActiveOverlay`; when it yields an overlay, only the
overlay's key images are pushed and `overlayWasActive` is set.  Otherwise
if `overlayWasActive` was set, all keys are cleared first and the flag is
reset; then every non-failed module's `RenderKeys` result is pushed in
registration order. -/
def Coordinator.renderKeys (c : Coordinator) (env : List ModuleSpec) (dev : Device) :
    List Call × Coordinator :=
  match c.getActiveOverlay env with
  | some ov =>
      (Call.renderOverlayKeysCall ov :: pushKeyImages (specAt env ov).renderOverlayKeys,
       { c with overlayWasActive := true })
  | none =>
      let clears := if c.overlayWasActive then Coordinator.clearAllKeys dev else []
      let c1 := if c.overlayWasActive then { c with overlayWasActive := false } else c
      let normal :=
        c.modules.foldl
          (fun acc i =>
            if c.isFailed i then acc
            else acc ++ Call.renderKeysCall i :: pushKeyImages (specAt env i).renderKeys)
          []
      (clears ++ normal, c1)

/-- Go `Coordinator.renderStrip` (coordinator.go:361-405): nothing when the
captured strip rectangle is empty; an active overlay renders the strip
alone; otherwise every non-failed module with a strip allocation is asked
for its strip image and the non-nil results are composited in
registration order and pushed unconditionally. -/
def Coordinator.renderStrip (c : Coordinator) (env : List ModuleSpec) : List Call :=
  if c.stripRect.Empty then []
  else
    match c.getActiveOverlay env with
    | some ov =>
        Call.renderOverlayStripCall ov ::
          (match (specAt env ov).renderOverlayStrip with
           | some img => [Call.setStripImage img]
           | none => [])
    | none =>
        let r :=
          c.modules.foldl
            (fun (acc : List Call × List Image) i =>
              if c.isFailed i then acc
              else if !(c.resourcesForModule i).HasStrip then acc
              else
                match (specAt env i).renderStrip with
                | none => (acc.1 ++ [Call.renderStripCall i], acc.2)
                | some img => (acc.1 ++ [Call.renderStripCall i], acc.2 ++ [img]))
            ([], [])
        r.1 ++ [Call.setStripImage (Image.composite r.2)]

/-- One render tick (`renderLoop` body): `renderKeys` then `renderStrip`. -/
def Coordinator.renderTick (c : Coordinator) (env : List ModuleSpec) (dev : Device) :
    List Call × Coordinator :=
  let r := c.renderKeys env dev
  (r.1 ++ r.2.renderStrip env, r.2)

/-- Go `module.BaseModule` (internal/module/base.go). -/
structure BaseModule where
  id : String
  resources : Module.Resources
  ctxSet : Bool

/-- Go `module.NewBaseModule`. -/
def NewBaseModule (id : String) : BaseModule :=
  ⟨id, Module.Resources.zero, false⟩

/-- Go `BaseModule.Init`: store the derived context and the resources,
return nil. -/
def BaseModule.Init (b : BaseModule) (res : Module.Resources) :
    BaseModule × Option Unit :=
  ({ b with resources := res, ctxSet := true }, none)

/-- Go `BaseModule.Resources`: return the stored resources. -/
def BaseModule.Resources (b : BaseModule) : Module.Resources :=
  b.resources

namespace GitHub

/-- Go `github.OverlayType` (render.go:623-629). -/
inductive OverlayType where
  | OverlayNone
  | OverlayMyPRs
  | OverlayReviewRequested
deriving DecidableEq, Repr

/-- The overlay-relevant state of the GitHub module
(`github.Module`, render.go:632-665): the overlay kind, the expiry
timestamp, the pagination page, and the granted keys.  Wall-clock time
is modelled as `Nat` milliseconds and passed to each method as `now`
(the method's `time.Now()`). -/
structure Module where
  overlayType : OverlayType
  overlayExpiry : Nat
  currentPage : Int
  resourcesKeys : List Belowdeck.Module.KeyID
deriving DecidableEq, Repr

/-- Go `github.Module.HandleKey` (render.go:842-862): on a press sub-event,
pick the overlay kind from which granted key was hit, set the expiry to
now + 5s, and reset pagination; release sub-events are ignored. -/
def Module.HandleKey (m : Module) (now : Nat) (id : Belowdeck.Module.KeyID)
    (event : Belowdeck.Module.KeyEvent) : Module :=
  if !event.Pressed then m
  else
    { m with
        overlayType :=
          if m.resourcesKeys.length > 1 && m.resourcesKeys.getD 1 0 == id then
            OverlayType.OverlayReviewRequested
          else OverlayType.OverlayMyPRs
        overlayExpiry := now + 5000
        currentPage := 0 }

/-- Go `github.Module.IsOverlayActive` (render.go:980-1000): inactive when
no overlay is stored; when the stored expiry lies strictly in the past,
clear the overlay as a side effect and report inactive; otherwise report
active. -/
def Module.IsOverlayActive (m : Module) (now : Nat) : Bool × Module :=
  if m.overlayType = OverlayType.OverlayNone then (false, m)
  else if now > m.overlayExpiry then
    (false, { m with overlayType := OverlayType.OverlayNone })
  else (true, m)

end GitHub

namespace Acquisition

/-!
Device acquisition (`cmd/belowdeck`, current `main.go` — the version
carrying the `enumInFlight` guard).  The single-flight guard and the
lifecycle of enumeration goroutines are modelled as a transition system:
an `attempt` event is a call to `tryGetDeviceWithTimeout` reaching the
`enumInFlight.CompareAndSwap(false, true)` guard, and a `goroutineDone`
event is the spawned enumeration goroutine finishing (its deferred
`enumInFlight.Store(false)`).  The body of a spawned attempt —
timeout against the 5s timer and the discard-late-result path — is the
function `tryGetDeviceWithTimeout` below.
-/

/-- Observable actions of the acquisition path. -/
inductive AcqAction where
  | startEnumCall
  | returnUnavailable
  | closeDevice (dev : Nat)
  | logTimeout
deriving DecidableEq, Repr

/-- The guard `enumInFlight` plus the number of enumeration goroutines currently
running (the latter is ghost state used to phrase "outstanding"). -/
structure AcqState where
  enumInFlight : Bool
  outstanding : Nat
deriving DecidableEq, Repr

/-- Process start: the guard is clear and no goroutine runs. -/
def initState : AcqState := ⟨false, 0⟩

/-- The two events the guard reacts to. -/
inductive AcqEvent where
  | attempt
  | goroutineDone
deriving DecidableEq, Repr

/-- One step.  `attempt`: the CAS fails when the guard is held and the
call returns nil immediately without spawning; otherwise the guard is
taken and one enumeration goroutine starts.  `goroutineDone`: the
goroutine's deferred `Store(false)` releases the guard. -/
def step : AcqState → AcqEvent → AcqState × List AcqAction
  | s, .attempt =>
      if s.enumInFlight then (s, [AcqAction.returnUnavailable])
      else ({ enumInFlight := true, outstanding := s.outstanding + 1 },
            [AcqAction.startEnumCall])
  | s, .goroutineDone =>
      if s.outstanding = 0 then (s, [])
      else ({ enumInFlight := false, outstanding := s.outstanding - 1 }, [])

/-- The state after a sequence of events from process start. -/
def run (es : List AcqEvent) : AcqState :=
  es.foldl (fun s e => (step s e).1) initState

/-- The single-flight invariant: at most one enumeration goroutine, and
the guard is held exactly while one runs. -/
def Inv (s : AcqState) : Prop :=
  s.outstanding ≤ 1 ∧ s.enumInFlight = decide (s.outstanding = 1)

/-- The body of a spawned attempt (status-file main.go:260-277), given
whether the 5s timer fired before the goroutine's result arrived and
what the enumeration produced.  In time: `(some dev, [])` hands the
device to the caller; on timeout the caller gets `none` and a cleanup
goroutine closes a late successfully-opened device. -/
inductive EnumResult where
  | ok (dev : Nat)
  | err
deriving DecidableEq, Repr

/-- See `EnumResult`. -/
def tryGetDeviceWithTimeout (timedOut : Bool) (r : EnumResult) :
    Option Nat × List AcqAction :=
  if timedOut then
    (none,
     AcqAction.logTimeout ::
       (match r with
        | .ok dev => [AcqAction.closeDevice dev]
        | .err => []))
  else
    match r with
    | .ok dev => (some dev, [])
    | .err => (none, [])

end Acquisition

/-- Does this call invoke a method of module `i` (a handler or a render
method — `Stop` is deliberately not included, since `Coordinator.Stop`
calls it on failed modules as well)? -/
def Call.invokesModule (i : Nat) : Call → Bool
  | .handleKey m _ _ => m == i
  | .handleOverlayKey m _ _ => m == i
  | .handleDial m _ _ => m == i
  | .handleOverlayDial m _ _ => m == i
  | .handleStripTouch m _ => m == i
  | .handleOverlayStripTouch m _ => m == i
  | .renderKeysCall m => m == i
  | .renderStripCall m => m == i
  | .renderOverlayKeysCall m => m == i
  | .renderOverlayStripCall m => m == i
  | _ => false

/-- Is this call a normal (non-overlay) event-handler invocation? -/
def Call.isNormalHandler : Call → Bool
  | .handleKey _ _ _ => true
  | .handleDial _ _ _ => true
  | .handleStripTouch _ _ => true
  | _ => false

/-- Is this call an overlay event-handler invocation on module `i`? -/
def Call.isOverlayHandlerOf (i : Nat) : Call → Bool
  | .handleOverlayKey m _ _ => m == i
  | .handleOverlayDial m _ _ => m == i
  | .handleOverlayStripTouch m _ => m == i
  | _ => false

/-- Is this call any overlay event-handler invocation? -/
def Call.isOverlayHandler : Call → Bool
  | .handleOverlayKey _ _ _ => true
  | .handleOverlayDial _ _ _ => true
  | .handleOverlayStripTouch _ _ => true
  | _ => false

/-- Is this call a `HandleKey` invocation (on any module)? -/
def Call.isHandleKey : Call → Bool
  | .handleKey _ _ _ => true
  | _ => false

/-- Is this call a normal (non-overlay) `RenderKeys`/`RenderStrip`
invocation? -/
def Call.isNormalRender : Call → Bool
  | .renderKeysCall _ => true
  | .renderStripCall _ => true
  | _ => false

/-! Concrete sample inputs used by witnesses and counterexamples. -/

/-- A device whose geometry queries succeed. -/
def devS : Device := ⟨some ⟨0, 0, 120, 120⟩, true, some ⟨0, 0, 800, 100⟩⟩

/-- One well-behaved module, not an overlay provider. -/
def envPlain : List ModuleSpec := [ModuleSpec.default]

/-- One module whose `HandleKey` returns an error for press sub-events. -/
def envPressErr : List ModuleSpec :=
  [{ ModuleSpec.default with handleKeyErr := fun _ e => e.Pressed }]

/-- One module holding an active overlay. -/
def envOv : List ModuleSpec :=
  [{ ModuleSpec.default with overlayProvider := true, overlayActive := true }]

/-- Module 0 fails `Init`; module 1 succeeds. -/
def envInit : List ModuleSpec :=
  [{ ModuleSpec.default with initErr := true }, ModuleSpec.default]

/-- A coordinator with the single module 0 registered for key 1 and dial 1. -/
def cOne : Coordinator :=
  (Coordinator.New.RegisterModule 0 ⟨[1], Rect.zero, [1]⟩).1

/-- The coordinator `cOne` after `Start`'s setup against `envPlain` (module 0 healthy). -/
def cOneStarted : Coordinator :=
  cOne.startSetup devS envPlain

/-- A coordinator on which the overlay of module 0 was active on the
previous render tick but no overlay is active now. -/
def cAfterOverlay : Coordinator :=
  { cOneStarted with overlayWasActive := true }

/-- Modules 0 and 1 registered with overlapping grants: both claim
key 1 and dial 1. -/
def cOverlap : Coordinator :=
  (((Coordinator.New.RegisterModule 0 ⟨[1, 2], Rect.zero, [1]⟩).1).RegisterModule
    1 ⟨[1], Rect.zero, [1, 2]⟩).1

/-- Modules 0 (which will fail `Init`) and 1 registered, before `Start`:
module 0 owns key 1/dial 1, module 1 owns key 2/dial 2 and the strip. -/
def cInitPre : Coordinator :=
  (((Coordinator.New.RegisterModule 0 ⟨[1], Rect.zero, [1]⟩).1).RegisterModule
    1 ⟨[2], ⟨0, 0, 800, 100⟩, [2]⟩).1

/-- The coordinator `cInitPre` after `Start`'s setup against `envInit`. -/
def cInitStarted : Coordinator :=
  cInitPre.startSetup devS envInit

/-- A GitHub module state with an overlay stored and expiry at t = 1000. -/
def ghSample : GitHub.Module :=
  ⟨GitHub.OverlayType.OverlayMyPRs, 1000, 0, [3, 4]⟩

namespace Acquisition

theorem inv_init : Inv initState := by
  constructor <;> simp [initState]

theorem inv_step (s : AcqState) (e : AcqEvent) (h : Inv s) : Inv ((step s e).1) := by
  obtain ⟨h1, h2⟩ := h
  cases e with
  | attempt =>
      cases hf : s.enumInFlight with
      | true => simpa [step, hf] using ⟨h1, h2⟩
      | false =>
          have hne : s.outstanding ≠ 1 := by
            have hd : decide (s.outstanding = 1) = false := by rw [← h2, hf]
            simpa using hd
          have h0 : s.outstanding = 0 := by omega
          simp [step, hf, Inv, h0]
  | goroutineDone =>
      by_cases hz : s.outstanding = 0
      · simpa [step, hz] using ⟨h1, h2⟩
      · have h1' : s.outstanding = 1 := by omega
        simp [step, hz, Inv, h1']

theorem inv_run (es : List AcqEvent) : Inv (run es) := by
  have h : ∀ s, Inv s → Inv (es.foldl (fun s e => (step s e).1) s) := by
    induction es with
    | nil => intro s hs; simpa using hs
    | cons e es ih =>
        intro s hs
        simp only [List.foldl_cons]
        exact ih _ (inv_step s e hs)
  exact h initState inv_init

/-- Claim C1: In every reachable acquisition state, at most one blocking
enumeration goroutine is outstanding, and an acquisition attempt issued
while one is outstanding starts no second enumeration call: it returns
"unavailable" immediately, leaving the state unchanged. -/
theorem single_flight_guard (es : List AcqEvent) :
    (run es).outstanding ≤ 1 ∧
      (0 < (run es).outstanding →
        step (run es) AcqEvent.attempt = (run es, [AcqAction.returnUnavailable])) := by
  obtain ⟨h1, h2⟩ := inv_run es
  refine ⟨h1, fun hpos => ?_⟩
  have heq : (run es).outstanding = 1 := by omega
  have hf : (run es).enumInFlight = true := by
    rw [h2, heq]; simp
  simp [step, hf]

theorem single_flight_guard_witness :
    0 < (run [AcqEvent.attempt]).outstanding ∧
      step (run [AcqEvent.attempt]) AcqEvent.attempt
        = (run [AcqEvent.attempt], [AcqAction.returnUnavailable]) :=
  ⟨by decide, (single_flight_guard [AcqEvent.attempt]).2 (by decide)⟩

/-- Claim C6: An acquisition attempt that exceeded its timeout returns no
device to the caller, and when its enumeration later completes with a
successfully opened device, that late device handle is closed rather
than used. -/
theorem late_result_discarded (dev : Nat) (r : EnumResult) :
    (tryGetDeviceWithTimeout true r).1 = none ∧
      AcqAction.closeDevice dev ∈ (tryGetDeviceWithTimeout true (EnumResult.ok dev)).2 := by
  constructor
  · cases r <;> simp [tryGetDeviceWithTimeout]
  · simp [tryGetDeviceWithTimeout]

end Acquisition

/-- Claim C4: Once an overlay is stored with expiry timestamp `T`, querying
`IsOverlayActive` at any time strictly after `T` reports inactive and, as
a side effect of that query, clears the stored overlay kind; on the
cleared state every further query (at any time) reports inactive and
leaves the state untouched, so the lazy expiry happens exactly once and
the check is idempotent thereafter.  Every activation through `HandleKey`
(a press sub-event) produces such a state, with expiry `now + 5s`. -/
theorem overlay_lazy_expiry (m : GitHub.Module) (T t : Nat)
    (hactive : m.overlayType ≠ GitHub.OverlayType.OverlayNone)
    (hT : m.overlayExpiry = T) (ht : T < t) :
    (m.IsOverlayActive t).1 = false ∧
      (m.IsOverlayActive t).2 = { m with overlayType := GitHub.OverlayType.OverlayNone } ∧
      (∀ u, ((m.IsOverlayActive t).2).IsOverlayActive u = (false, (m.IsOverlayActive t).2)) ∧
      (∀ (m0 : GitHub.Module) (now : Nat) (id : Module.KeyID) (ev : Module.KeyEvent),
        ev.Pressed = true →
          (m0.HandleKey now id ev).overlayType ≠ GitHub.OverlayType.OverlayNone ∧
          (m0.HandleKey now id ev).overlayExpiry = now + 5000) := by
  have hgt : t > m.overlayExpiry := by omega
  refine ⟨?_, ?_, ?_, ?_⟩
  · simp [GitHub.Module.IsOverlayActive, hactive, hgt]
  · simp [GitHub.Module.IsOverlayActive, hactive, hgt]
  · intro u
    simp [GitHub.Module.IsOverlayActive, hactive, hgt]
  · intro m0 now id ev hev
    constructor
    · simp only [GitHub.Module.HandleKey, hev, Bool.not_true, Bool.false_eq_true, if_false]
      split <;> simp
    · simp [GitHub.Module.HandleKey, hev]

theorem overlay_lazy_expiry_witness :
    ghSample.overlayType ≠ GitHub.OverlayType.OverlayNone ∧
      ghSample.overlayExpiry = 1000 ∧ 1000 < 1001 ∧
      (ghSample.IsOverlayActive 1001).1 = false ∧
      (ghSample.IsOverlayActive 1001).2
        = { ghSample with overlayType := GitHub.OverlayType.OverlayNone } ∧
      ((ghSample.IsOverlayActive 1001).2).IsOverlayActive 99999
        = (false, (ghSample.IsOverlayActive 1001).2) := by
  have h := overlay_lazy_expiry ghSample 1000 1001 (by decide) rfl (by decide)
  exact ⟨by decide, rfl, by decide, h.1, h.2.1, h.2.2.1 99999⟩

/-- Claim C10: When `Start` has derived the cancellable context,
`Coordinator.Stop` cancels it first and then calls `Stop` on every
registered module in registration order (failed modules included), and
it always returns nil regardless of the modules' own `Stop` results. -/
theorem stop_order_and_result (c : Coordinator) (h : c.cancelSet = true) :
    c.Stop = (Call.cancelCtx :: c.modules.map Call.stopCall, none) ∧
      ∀ m ∈ c.modules, Call.stopCall m ∈ c.Stop.1 := by
  constructor
  · simp [Coordinator.Stop, h]
  · intro m hm
    simp only [Coordinator.Stop, h, if_pos]
    exact List.mem_append_right _ (List.mem_map_of_mem _ hm)

theorem stop_order_and_result_witness :
    cOneStarted.cancelSet = true ∧
      cOneStarted.Stop = (Call.cancelCtx :: cOneStarted.modules.map Call.stopCall, none) :=
  ⟨rfl, (stop_order_and_result cOneStarted rfl).1⟩

theorem register_stores (c : Coordinator) (m : Nat) (R : Module.Resources) :
    ((c.RegisterModule m R).1).resourcesForModule m = R := by
  simp [Coordinator.RegisterModule, Coordinator.resourcesForModule]

theorem register_preserves_other (c : Coordinator) (j m : Nat) (R' : Module.Resources)
    (h : j ≠ m) :
    ((c.RegisterModule j R').1).resourcesForModule m = c.resourcesForModule m := by
  simp [Coordinator.RegisterModule, Coordinator.resourcesForModule, Ne.symm h]

theorem register_foldl_preserves (later : List (Nat × Module.Resources)) (m : Nat)
    (hlater : ∀ p ∈ later, p.1 ≠ m) (c : Coordinator) :
    (later.foldl (fun c' p => (c'.RegisterModule p.1 p.2).1) c).resourcesForModule m
      = c.resourcesForModule m := by
  induction later generalizing c with
  | nil => rfl
  | cons a as ih =>
      simp only [List.foldl_cons]
      rw [ih (fun p hp => hlater p (List.mem_cons_of_mem a hp)) _,
        register_preserves_other _ _ _ _ (hlater a (List.mem_cons_self a as))]

/-- Claim C7: Registering module `m` with resource set `R` and querying
afterwards — directly, after any further registrations of other modules,
or through `BaseModule.Init`/`BaseModule.Resources` — returns exactly
`R`, unmutated. -/
theorem resources_roundtrip (c : Coordinator) (m : Nat) (R : Module.Resources)
    (later : List (Nat × Module.Resources)) (hlater : ∀ p ∈ later, p.1 ≠ m)
    (b : BaseModule) :
    ((c.RegisterModule m R).1).resourcesForModule m = R ∧
      (later.foldl (fun c' p => (c'.RegisterModule p.1 p.2).1)
          (c.RegisterModule m R).1).resourcesForModule m = R ∧
      ((b.Init R).1).Resources = R := by
  refine ⟨register_stores c m R, ?_, rfl⟩
  rw [register_foldl_preserves later m hlater _]
  exact register_stores c m R

theorem resources_roundtrip_witness :
    (∀ p ∈ [((1 : Nat), Module.Resources.zero)], p.1 ≠ 0) ∧
      ((Coordinator.New.RegisterModule 0 ⟨[1], Rect.zero, [1]⟩).1).resourcesForModule 0
        = ⟨[1], Rect.zero, [1]⟩ := by
  refine ⟨by decide, ?_⟩
  exact (resources_roundtrip Coordinator.New 0 ⟨[1], Rect.zero, [1]⟩
    [((1 : Nat), Module.Resources.zero)] (by decide) (NewBaseModule ("sample"))).1

theorem foldl_setOwner_not_mem (keys : List Nat) (m : Nat) (f : Nat → Option Nat) (k : Nat)
    (h : k ∉ keys) :
    (keys.foldl (fun g key => setOwner g key m) f) k = f k := by
  induction keys generalizing f with
  | nil => rfl
  | cons a as ih =>
      simp only [List.foldl_cons]
      have hka : k ≠ a := fun hh => h (hh ▸ List.mem_cons_self a as)
      have hkas : k ∉ as := fun hh => h (List.mem_cons_of_mem a hh)
      rw [ih _ hkas]
      simp [setOwner, hka]

theorem foldl_setOwner_mem (keys : List Nat) (m : Nat) (f : Nat → Option Nat) (k : Nat)
    (h : k ∈ keys) :
    (keys.foldl (fun g key => setOwner g key m) f) k = some m := by
  induction keys generalizing f with
  | nil => cases h
  | cons a as ih =>
      simp only [List.foldl_cons]
      by_cases hmem : k ∈ as
      · exact ih _ hmem
      · have hka : k = a := by
          rcases List.mem_cons.mp h with h1 | h1
          · exact h1
          · exact absurd h1 hmem
        rw [foldl_setOwner_not_mem as m _ k hmem]
        simp [setOwner, hka]

/-- Claim C8: When two modules are registered in order with overlapping
key or dial grants, neither registration returns an error, and the
ownership maps used for routing map every contested key and dial to the
later-registered module. -/
theorem later_registrant_wins (c : Coordinator) (m1 m2 : Nat) (R1 R2 : Module.Resources)
    (k : Module.KeyID) (d : Module.DialID)
    (hk1 : k ∈ R1.Keys) (hk2 : k ∈ R2.Keys)
    (hd1 : d ∈ R1.Dials) (hd2 : d ∈ R2.Dials) :
    (c.RegisterModule m1 R1).2 = none ∧
      (((c.RegisterModule m1 R1).1).RegisterModule m2 R2).2 = none ∧
      ((((c.RegisterModule m1 R1).1).RegisterModule m2 R2).1).keyOwners k = some m2 ∧
      ((((c.RegisterModule m1 R1).1).RegisterModule m2 R2).1).dialOwners d = some m2 := by
  refine ⟨rfl, rfl, ?_, ?_⟩
  · simp only [Coordinator.RegisterModule]
    exact foldl_setOwner_mem _ _ _ _ hk2
  · simp only [Coordinator.RegisterModule]
    exact foldl_setOwner_mem _ _ _ _ hd2

theorem later_registrant_wins_witness :
    (1 : Nat) ∈ ([1, 2] : List Nat) ∧ (1 : Nat) ∈ ([1] : List Nat) ∧
      cOverlap.keyOwners 1 = some 1 ∧ cOverlap.dialOwners 1 = some 1 := by
  have h := later_registrant_wins Coordinator.New 0 1
    ⟨[1, 2], Rect.zero, [1]⟩ ⟨[1], Rect.zero, [1, 2]⟩ 1 1
    (by decide) (by decide) (by decide) (by decide)
  exact ⟨by decide, by decide, h.2.2.1, h.2.2.2⟩

/-! Helper lemmas about `startSetup`, `getActiveOverlay` and the
dispatch/render traces. -/

theorem foldl_append_filter (l : List Nat) (p : Nat → Bool) (acc : List Nat) :
    l.foldl (fun a i => if p i then a ++ [i] else a) acc = acc ++ l.filter p := by
  induction l generalizing acc with
  | nil => simp
  | cons a as ih =>
      simp only [List.foldl_cons, List.filter_cons]
      by_cases hp : p a
      · simp [hp, ih]
      · simp [hp, ih]

theorem startSetup_preserves (dev : Device) (env : List ModuleSpec) (c : Coordinator) :
    (c.startSetup dev env).modules = c.modules ∧
      (c.startSetup dev env).keyOwners = c.keyOwners ∧
      (c.startSetup dev env).dialOwners = c.dialOwners ∧
      (c.startSetup dev env).moduleResources = c.moduleResources ∧
      (c.startSetup dev env).cancelSet = true := by
  simp only [Coordinator.startSetup, Coordinator.startInits]
  split
  · split <;> exact ⟨rfl, rfl, rfl, rfl, rfl⟩
  · exact ⟨rfl, rfl, rfl, rfl, rfl⟩

theorem startSetup_failedModules (dev : Device) (env : List ModuleSpec) (c : Coordinator) :
    (c.startSetup dev env).failedModules
      = c.failedModules ++ c.modules.filter (fun i => (specAt env i).initErr) := by
  simp only [Coordinator.startSetup, Coordinator.startInits]
  split
  · split <;> exact foldl_append_filter _ _ _
  · exact foldl_append_filter _ _ _

theorem getActiveOverlay_not_failed (c : Coordinator) (env : List ModuleSpec) (i : Nat)
    (hf : c.isFailed i = true) : c.getActiveOverlay env ≠ some i := by
  intro h
  have hp := List.find?_some h
  simp [hf] at hp

theorem mem_pushKeyImages (imgs : List (Module.KeyID × Option Image)) (x : Call)
    (h : x ∈ pushKeyImages imgs) : ∃ k img, x = Call.setKeyImage k img := by
  obtain ⟨p, _, hpx⟩ := List.mem_filterMap.mp h
  cases hh : p.2 with
  | none => rw [hh] at hpx; cases hpx
  | some img =>
      rw [hh] at hpx
      exact ⟨p.1, img, (Option.some_inj.mp hpx).symm⟩

theorem mem_clearAllKeys (dev : Device) (x : Call) (h : x ∈ Coordinator.clearAllKeys dev) :
    ∃ k r, x = Call.setKeyImage k (Image.black r) := by
  unfold Coordinator.clearAllKeys at h
  cases hk : dev.keyRect with
  | none => rw [hk] at h; cases h
  | some r =>
      rw [hk] at h
      obtain ⟨k, _, hx⟩ := List.mem_map.mp h
      exact ⟨k, r, hx.symm⟩

theorem mem_foldl_skip_append {α β : Type} (l : List α) (g : α → List β) (p : α → Bool)
    (acc : List β) (x : β)
    (h : x ∈ l.foldl (fun a j => if p j then a else a ++ g j) acc) :
    x ∈ acc ∨ ∃ j ∈ l, p j = false ∧ x ∈ g j := by
  induction l generalizing acc with
  | nil => exact Or.inl h
  | cons a as ih =>
      simp only [List.foldl_cons] at h
      by_cases hp : p a
      · rw [if_pos hp] at h
        rcases ih _ h with h1 | ⟨j, hj, hjp, hx⟩
        · exact Or.inl h1
        · exact Or.inr ⟨j, List.mem_cons_of_mem _ hj, hjp, hx⟩
      · rw [if_neg hp] at h
        rcases ih _ h with h1 | ⟨j, hj, hjp, hx⟩
        · rcases List.mem_append.mp h1 with h2 | h2
          · exact Or.inl h2
          · exact Or.inr ⟨a, List.mem_cons_self a as, by simpa using hp, h2⟩
        · exact Or.inr ⟨j, List.mem_cons_of_mem _ hj, hjp, hx⟩

theorem foldl_skip_append_acc_mono {α β : Type} (l : List α) (g : α → List β) (p : α → Bool)
    (acc : List β) (x : β) (hx : x ∈ acc) :
    x ∈ l.foldl (fun a j => if p j then a else a ++ g j) acc := by
  induction l generalizing acc with
  | nil => exact hx
  | cons a as ih =>
      simp only [List.foldl_cons]
      apply ih
      split
      · exact hx
      · exact List.mem_append_left _ hx

theorem foldl_skip_append_mem_of {α β : Type} [DecidableEq α] (l : List α) (g : α → List β)
    (p : α → Bool) (acc : List β) (i : α) (y : β)
    (hi : i ∈ l) (hf : p i = false) (hy : y ∈ g i) :
    y ∈ l.foldl (fun a j => if p j then a else a ++ g j) acc := by
  induction l generalizing acc with
  | nil => cases hi
  | cons a as ih =>
      simp only [List.foldl_cons]
      rcases List.mem_cons.mp hi with rfl | hmem
      · rw [if_neg (by simp [hf])]
        exact foldl_skip_append_acc_mono _ _ _ _ _ (List.mem_append_right _ hy)
      · exact ih _ hmem

theorem beq_false_of_ne_failed (c : Coordinator) (o i : Nat)
    (hof : c.isFailed o = false) (hf : c.isFailed i = true) : (o == i) = false := by
  have : o ≠ i := fun hh => by rw [hh, hf] at hof; cases hof
  simpa using this

theorem overlay_beq_false (c : Coordinator) (env : List ModuleSpec) (ov i : Nat)
    (hov : c.getActiveOverlay env = some ov) (hf : c.isFailed i = true) :
    (ov == i) = false := by
  have : ov ≠ i := fun hh => getActiveOverlay_not_failed c env i hf (hh ▸ hov)
  simpa using this

theorem dispatchKey_excludes_failed (c : Coordinator) (env : List ModuleSpec)
    (key : Module.KeyID) (dur : Nat) (i : Nat) (hf : c.isFailed i = true) :
    ∀ x ∈ (c.dispatchKey env key dur).1, x.invokesModule i = false := by
  cases hov : c.getActiveOverlay env with
  | some ov =>
      have hovne := overlay_beq_false c env ov i hov hf
      simp only [Coordinator.dispatchKey, hov]
      split
      · intro x hx
        simp only [List.mem_singleton] at hx
        subst hx
        simp [Call.invokesModule, hovne]
      · intro x hx
        simp only [List.mem_cons, List.not_mem_nil, or_false] at hx
        rcases hx with rfl | rfl | rfl <;> simp [Call.invokesModule, hovne]
  | none =>
      cases ho : c.keyOwners key with
      | none => simp [Coordinator.dispatchKey, hov, ho]
      | some o =>
          cases hof : c.isFailed o with
          | true => simp [Coordinator.dispatchKey, hov, ho, hof]
          | false =>
              have hone := beq_false_of_ne_failed c o i hof hf
              simp only [Coordinator.dispatchKey, hov, ho, hof, Bool.false_eq_true,
                if_false]
              split
              · intro x hx
                simp only [List.mem_singleton] at hx
                subst hx
                simp [Call.invokesModule, hone]
              · intro x hx
                simp only [List.mem_cons, List.not_mem_nil, or_false] at hx
                rcases hx with rfl | rfl | rfl <;> simp [Call.invokesModule, hone]

theorem dispatchDialRotate_excludes_failed (c : Coordinator) (env : List ModuleSpec)
    (dial : Module.DialID) (delta : Int) (i : Nat) (hf : c.isFailed i = true) :
    ∀ x ∈ (c.dispatchDialRotate env dial delta).1, x.invokesModule i = false := by
  cases hov : c.getActiveOverlay env with
  | some ov =>
      have hovne := overlay_beq_false c env ov i hov hf
      simp only [Coordinator.dispatchDialRotate, hov]
      intro x hx
      simp only [List.mem_singleton] at hx
      subst hx
      simp [Call.invokesModule, hovne]
  | none =>
      cases ho : c.dialOwners dial with
      | none => simp [Coordinator.dispatchDialRotate, hov, ho]
      | some o =>
          cases hof : c.isFailed o with
          | true => simp [Coordinator.dispatchDialRotate, hov, ho, hof]
          | false =>
              have hone := beq_false_of_ne_failed c o i hof hf
              simp only [Coordinator.dispatchDialRotate, hov, ho, hof, Bool.false_eq_true,
                if_false]
              intro x hx
              simp only [List.mem_singleton] at hx
              subst hx
              simp [Call.invokesModule, hone]

theorem dispatchDialSwitch_excludes_failed (c : Coordinator) (env : List ModuleSpec)
    (dial : Module.DialID) (dur : Nat) (i : Nat) (hf : c.isFailed i = true) :
    ∀ x ∈ (c.dispatchDialSwitch env dial dur).1, x.invokesModule i = false := by
  cases hov : c.getActiveOverlay env with
  | some ov =>
      have hovne := overlay_beq_false c env ov i hov hf
      simp only [Coordinator.dispatchDialSwitch, hov]
      split
      · intro x hx
        simp only [List.mem_singleton] at hx
        subst hx
        simp [Call.invokesModule, hovne]
      · intro x hx
        simp only [List.mem_cons, List.not_mem_nil, or_false] at hx
        rcases hx with rfl | rfl | rfl <;> simp [Call.invokesModule, hovne]
  | none =>
      cases ho : c.dialOwners dial with
      | none => simp [Coordinator.dispatchDialSwitch, hov, ho]
      | some o =>
          cases hof : c.isFailed o with
          | true => simp [Coordinator.dispatchDialSwitch, hov, ho, hof]
          | false =>
              have hone := beq_false_of_ne_failed c o i hof hf
              simp only [Coordinator.dispatchDialSwitch, hov, ho, hof, Bool.false_eq_true,
                if_false]
              split
              · intro x hx
                simp only [List.mem_singleton] at hx
                subst hx
                simp [Call.invokesModule, hone]
              · intro x hx
                simp only [List.mem_cons, List.not_mem_nil, or_false] at hx
                rcases hx with rfl | rfl | rfl <;> simp [Call.invokesModule, hone]

theorem routeStripEvent_excludes_failed (c : Coordinator) (env : List ModuleSpec)
    (ev : Module.TouchStripEvent) (i : Nat) (hf : c.isFailed i = true) :
    ∀ x ∈ (c.routeStripEvent env ev).1, x.invokesModule i = false := by
  unfold Coordinator.routeStripEvent
  cases hm : c.modules.find?
      (fun j => !c.isFailed j && (c.resourcesForModule j).HasStrip) with
  | none => simp
  | some m =>
      have hmp := List.find?_some hm
      have hmf : c.isFailed m = false := by
        simp only [Bool.and_eq_true, Bool.not_eq_true'] at hmp
        exact hmp.1
      have hmne := beq_false_of_ne_failed c m i hmf hf
      intro x hx
      simp only [List.mem_singleton] at hx
      subst hx
      simp [Call.invokesModule, hmne]

theorem dispatchStripTouch_excludes_failed (c : Coordinator) (env : List ModuleSpec)
    (ev : Module.TouchStripEvent) (i : Nat) (hf : c.isFailed i = true) :
    ∀ x ∈ (c.dispatchStripTouch env ev).1, x.invokesModule i = false := by
  cases hov : c.getActiveOverlay env with
  | some ov =>
      have hovne := overlay_beq_false c env ov i hov hf
      simp only [Coordinator.dispatchStripTouch, hov]
      intro x hx
      simp only [List.mem_singleton] at hx
      subst hx
      simp [Call.invokesModule, hovne]
  | none =>
      simp only [Coordinator.dispatchStripTouch, hov]
      exact routeStripEvent_excludes_failed c env ev i hf

theorem renderKeys_overlay (c : Coordinator) (env : List ModuleSpec) (dev : Device)
    (ov : Nat) (hov : c.getActiveOverlay env = some ov) :
    c.renderKeys env dev
      = (Call.renderOverlayKeysCall ov :: pushKeyImages (specAt env ov).renderOverlayKeys,
         { c with overlayWasActive := true }) := by
  simp only [Coordinator.renderKeys, hov]

theorem getActiveOverlay_flag (c : Coordinator) (env : List ModuleSpec) (b : Bool) :
    ({ c with overlayWasActive := b } : Coordinator).getActiveOverlay env
      = c.getActiveOverlay env := rfl

theorem renderKeys_state (c : Coordinator) (env : List ModuleSpec) (dev : Device) :
    (c.renderKeys env dev).2.failedModules = c.failedModules ∧
      (c.renderKeys env dev).2.modules = c.modules ∧
      (c.renderKeys env dev).2.moduleResources = c.moduleResources ∧
      (c.renderKeys env dev).2.stripRect = c.stripRect ∧
      (c.renderKeys env dev).2.getActiveOverlay env = c.getActiveOverlay env := by
  cases hov : c.getActiveOverlay env with
  | some ov =>
      rw [renderKeys_overlay c env dev ov hov]
      exact ⟨rfl, rfl, rfl, rfl, (getActiveOverlay_flag c env true).trans hov⟩
  | none =>
      simp only [Coordinator.renderKeys, hov]
      split
      · exact ⟨rfl, rfl, rfl, rfl, (getActiveOverlay_flag c env false).trans hov⟩
      · exact ⟨rfl, rfl, rfl, rfl, hov⟩

theorem renderStrip_foldl_mem (c : Coordinator) (env : List ModuleSpec) (l : List Nat)
    (acc : List Call × List Image) (x : Call)
    (h : x ∈ (l.foldl (fun (acc : List Call × List Image) i =>
        if c.isFailed i then acc
        else if !(c.resourcesForModule i).HasStrip then acc
        else match (specAt env i).renderStrip with
          | none => (acc.1 ++ [Call.renderStripCall i], acc.2)
          | some img => (acc.1 ++ [Call.renderStripCall i], acc.2 ++ [img])) acc).1) :
    x ∈ acc.1 ∨ ∃ j ∈ l, c.isFailed j = false ∧ x = Call.renderStripCall j := by
  induction l generalizing acc with
  | nil => exact Or.inl h
  | cons a as ih =>
      simp only [List.foldl_cons] at h
      by_cases hfa : c.isFailed a
      · rw [if_pos hfa] at h
        rcases ih _ h with h1 | ⟨j, hj, hjf, hx⟩
        · exact Or.inl h1
        · exact Or.inr ⟨j, List.mem_cons_of_mem _ hj, hjf, hx⟩
      · rw [if_neg hfa] at h
        have hfa' : c.isFailed a = false := by simpa using hfa
        by_cases hs : !(c.resourcesForModule a).HasStrip
        · rw [if_pos hs] at h
          rcases ih _ h with h1 | ⟨j, hj, hjf, hx⟩
          · exact Or.inl h1
          · exact Or.inr ⟨j, List.mem_cons_of_mem _ hj, hjf, hx⟩
        · rw [if_neg hs] at h
          cases hr : (specAt env a).renderStrip with
          | none =>
              rw [hr] at h
              rcases ih _ h with h1 | ⟨j, hj, hjf, hx⟩
              · rcases List.mem_append.mp h1 with h2 | h2
                · exact Or.inl h2
                · simp only [List.mem_singleton] at h2
                  exact Or.inr ⟨a, List.mem_cons_self a as, hfa', h2⟩
              · exact Or.inr ⟨j, List.mem_cons_of_mem _ hj, hjf, hx⟩
          | some img =>
              rw [hr] at h
              rcases ih _ h with h1 | ⟨j, hj, hjf, hx⟩
              · rcases List.mem_append.mp h1 with h2 | h2
                · exact Or.inl h2
                · simp only [List.mem_singleton] at h2
                  exact Or.inr ⟨a, List.mem_cons_self a as, hfa', h2⟩
              · exact Or.inr ⟨j, List.mem_cons_of_mem _ hj, hjf, hx⟩

theorem renderStrip_excludes_failed (c : Coordinator) (env : List ModuleSpec) (i : Nat)
    (hf : c.isFailed i = true) :
    ∀ x ∈ c.renderStrip env, x.invokesModule i = false := by
  unfold Coordinator.renderStrip
  split
  · simp
  · cases hov : c.getActiveOverlay env with
    | some ov =>
        have hovne := overlay_beq_false c env ov i hov hf
        simp only [hov]
        intro x hx
        rcases List.mem_cons.mp hx with rfl | hx
        · simp [Call.invokesModule, hovne]
        · cases hs : (specAt env ov).renderOverlayStrip with
          | none => rw [hs] at hx; cases hx
          | some img =>
              rw [hs] at hx
              simp only [List.mem_singleton] at hx
              subst hx
              rfl
    | none =>
        simp only [hov]
        intro x hx
        rcases List.mem_append.mp hx with hx | hx
        · rcases renderStrip_foldl_mem c env c.modules ([], []) x hx with h1 | ⟨j, _, hjf, rfl⟩
          · cases h1
          · have hjne := beq_false_of_ne_failed c j i hjf hf
            simp [Call.invokesModule, hjne]
        · simp only [List.mem_singleton] at hx
          subst hx
          rfl

theorem renderKeys_excludes_failed (c : Coordinator) (env : List ModuleSpec) (dev : Device)
    (i : Nat) (hf : c.isFailed i = true) :
    ∀ x ∈ (c.renderKeys env dev).1, x.invokesModule i = false := by
  cases hov : c.getActiveOverlay env with
  | some ov =>
      have hovne := overlay_beq_false c env ov i hov hf
      rw [renderKeys_overlay c env dev ov hov]
      intro x hx
      rcases List.mem_cons.mp hx with rfl | hx
      · simp [Call.invokesModule, hovne]
      · obtain ⟨k, img, rfl⟩ := mem_pushKeyImages _ _ hx
        rfl
  | none =>
      simp only [Coordinator.renderKeys, hov]
      intro x hx
      rcases List.mem_append.mp hx with hx | hx
      · split at hx
        · obtain ⟨k, r, rfl⟩ := mem_clearAllKeys dev x hx
          rfl
        · cases hx
      · rcases mem_foldl_skip_append c.modules
            (fun j => Call.renderKeysCall j :: pushKeyImages (specAt env j).renderKeys)
            (fun j => c.isFailed j) [] x hx with h1 | ⟨j, _, hjf, hxg⟩
        · cases h1
        · have hjne := beq_false_of_ne_failed c j i hjf hf
          rcases List.mem_cons.mp hxg with rfl | hxg
          · simp [Call.invokesModule, hjne]
          · obtain ⟨k, img, rfl⟩ := mem_pushKeyImages _ _ hxg
            rfl

theorem renderKeysCall_mem_of_ok (c : Coordinator) (env : List ModuleSpec) (dev : Device)
    (i : Nat) (hov : c.getActiveOverlay env = none) (hi : i ∈ c.modules)
    (hf : c.isFailed i = false) :
    Call.renderKeysCall i ∈ (c.renderKeys env dev).1 := by
  simp only [Coordinator.renderKeys, hov]
  apply List.mem_append_right
  exact foldl_skip_append_mem_of c.modules
    (fun j => Call.renderKeysCall j :: pushKeyImages (specAt env j).renderKeys)
    (fun j => c.isFailed j) [] i _ hi hf (List.mem_cons_self _ _)

theorem dispatchKey_owner_press (c : Coordinator) (env : List ModuleSpec)
    (key : Module.KeyID) (dur : Nat) (o : Nat)
    (hov : c.getActiveOverlay env = none)
    (ho : c.keyOwners key = some o) (hf : c.isFailed o = false) :
    Call.handleKey o key ⟨true, 0⟩ ∈ (c.dispatchKey env key dur).1 := by
  simp only [Coordinator.dispatchKey, hov, ho, hf, Bool.false_eq_true, if_false]
  split <;> simp

theorem renderStrip_overlay_no_normal (c : Coordinator) (env : List ModuleSpec) (ov : Nat)
    (hov : c.getActiveOverlay env = some ov) :
    ∀ x ∈ c.renderStrip env, x.isNormalRender = false := by
  unfold Coordinator.renderStrip
  split
  · simp
  · simp only [hov]
    intro x hx
    rcases List.mem_cons.mp hx with rfl | hx
    · rfl
    · cases hs : (specAt env ov).renderOverlayStrip with
      | none => rw [hs] at hx; cases hx
      | some img =>
          rw [hs] at hx
          simp only [List.mem_singleton] at hx
          subst hx
          rfl

/-- Claim C3: While some non-failed module reports an active overlay, every
key, dial-rotate, dial-press, and touch-strip event is delivered
exclusively to the overlay's handlers: no normal (owner) handler is ever
invoked, every overlay-handler call in the trace targets the active
overlay, and the overlay does receive the event. -/
theorem overlay_exclusive_routing (c : Coordinator) (env : List ModuleSpec) (ov : Nat)
    (hov : c.getActiveOverlay env = some ov) (key : Module.KeyID) (dial : Module.DialID)
    (dur ddur : Nat) (delta : Int) (ev : Module.TouchStripEvent) :
    (∀ x ∈ (c.dispatchKey env key dur).1,
        x.isNormalHandler = false ∧
          (x.isOverlayHandler = true → x.isOverlayHandlerOf ov = true)) ∧
      Call.handleOverlayKey ov key ⟨true, 0⟩ ∈ (c.dispatchKey env key dur).1 ∧
      (∀ x ∈ (c.dispatchDialRotate env dial delta).1,
        x.isNormalHandler = false ∧
          (x.isOverlayHandler = true → x.isOverlayHandlerOf ov = true)) ∧
      Call.handleOverlayDial ov dial ⟨.DialRotate, delta, 0⟩
        ∈ (c.dispatchDialRotate env dial delta).1 ∧
      (∀ x ∈ (c.dispatchDialSwitch env dial ddur).1,
        x.isNormalHandler = false ∧
          (x.isOverlayHandler = true → x.isOverlayHandlerOf ov = true)) ∧
      Call.handleOverlayDial ov dial ⟨.DialPress, 0, 0⟩
        ∈ (c.dispatchDialSwitch env dial ddur).1 ∧
      (∀ x ∈ (c.dispatchStripTouch env ev).1,
        x.isNormalHandler = false ∧
          (x.isOverlayHandler = true → x.isOverlayHandlerOf ov = true)) ∧
      Call.handleOverlayStripTouch ov ev ∈ (c.dispatchStripTouch env ev).1 := by
  refine ⟨?_, ?_, ?_, ?_, ?_, ?_, ?_, ?_⟩
  · simp only [Coordinator.dispatchKey, hov]
    split
    · intro x hx
      simp only [List.mem_singleton] at hx
      subst hx
      simp [Call.isNormalHandler, Call.isOverlayHandler, Call.isOverlayHandlerOf]
    · intro x hx
      simp only [List.mem_cons, List.not_mem_nil, or_false] at hx
      rcases hx with rfl | rfl | rfl <;>
        simp [Call.isNormalHandler, Call.isOverlayHandler, Call.isOverlayHandlerOf]
  · simp only [Coordinator.dispatchKey, hov]
    split <;> simp
  · simp only [Coordinator.dispatchDialRotate, hov]
    intro x hx
    simp only [List.mem_singleton] at hx
    subst hx
    simp [Call.isNormalHandler, Call.isOverlayHandler, Call.isOverlayHandlerOf]
  · simp only [Coordinator.dispatchDialRotate, hov]
    simp
  · simp only [Coordinator.dispatchDialSwitch, hov]
    split
    · intro x hx
      simp only [List.mem_singleton] at hx
      subst hx
      simp [Call.isNormalHandler, Call.isOverlayHandler, Call.isOverlayHandlerOf]
    · intro x hx
      simp only [List.mem_cons, List.not_mem_nil, or_false] at hx
      rcases hx with rfl | rfl | rfl <;>
        simp [Call.isNormalHandler, Call.isOverlayHandler, Call.isOverlayHandlerOf]
  · simp only [Coordinator.dispatchDialSwitch, hov]
    split <;> simp
  · simp only [Coordinator.dispatchStripTouch, hov]
    intro x hx
    simp only [List.mem_singleton] at hx
    subst hx
    simp [Call.isNormalHandler, Call.isOverlayHandler, Call.isOverlayHandlerOf]
  · simp only [Coordinator.dispatchStripTouch, hov]
    simp

theorem overlay_exclusive_routing_witness :
    cOneStarted.getActiveOverlay envOv = some 0 ∧
      Call.handleOverlayKey 0 1 ⟨true, 0⟩ ∈ (cOneStarted.dispatchKey envOv 1 300).1 ∧
      (∀ x ∈ (cOneStarted.dispatchKey envOv 1 300).1, x.isNormalHandler = false) := by
  have h := overlay_exclusive_routing cOneStarted envOv 0 rfl 1 1 300 300 1
    ⟨.TouchTap, ⟨10, 10⟩, ⟨0, 0⟩, ⟨0, 0⟩⟩
  exact ⟨rfl, h.2.1, fun x hx => (h.1 x hx).1⟩

/-- Claim C5, amended: With no overlay active, a press on an owned key
whose owner is not failed and whose handler accepts the press sub-event
yields exactly the two `HandleKey` invocations, in order: the press
sub-event immediately, then — after the device-level wait-for-release
returns the hold duration — the release sub-event carrying it; dial
presses are split the same way into `DialPress` then `DialRelease` to
the same handler.  (If the press invocation returns an error, the
dispatch aborts and the release sub-event is never delivered — see the
counterexample to the unamended claim.) -/
theorem press_release_split (c : Coordinator) (env : List ModuleSpec)
    (key : Module.KeyID) (dial : Module.DialID) (o od : Nat) (dur ddur : Nat)
    (hov : c.getActiveOverlay env = none)
    (hko : c.keyOwners key = some o) (hkf : c.isFailed o = false)
    (hkerr : (specAt env o).handleKeyErr key ⟨true, 0⟩ = false)
    (hdo : c.dialOwners dial = some od) (hdf : c.isFailed od = false)
    (hderr : (specAt env od).handleDialErr dial ⟨.DialPress, 0, 0⟩ = false) :
    (c.dispatchKey env key dur).1
      = [Call.handleKey o key ⟨true, 0⟩, Call.waitForRelease key dur,
         Call.handleKey o key ⟨false, dur⟩] ∧
      (c.dispatchDialSwitch env dial ddur).1
      = [Call.handleDial od dial ⟨.DialPress, 0, 0⟩, Call.dialWaitForRelease dial ddur,
         Call.handleDial od dial ⟨.DialRelease, 0, ddur⟩] := by
  constructor
  · simp only [Coordinator.dispatchKey, hov, hko, hkf, hkerr, Bool.false_eq_true, if_false]
  · simp only [Coordinator.dispatchDialSwitch, hov, hdo, hdf, hderr, Bool.false_eq_true,
      if_false]

theorem press_release_split_witness :
    cOne.getActiveOverlay envPlain = none ∧ cOne.keyOwners 1 = some 0 ∧
      cOne.isFailed 0 = false ∧ (specAt envPlain 0).handleKeyErr 1 ⟨true, 0⟩ = false ∧
      cOne.dialOwners 1 = some 0 ∧
      (specAt envPlain 0).handleDialErr 1 ⟨.DialPress, 0, 0⟩ = false ∧
      (cOne.dispatchKey envPlain 1 300).1
        = [Call.handleKey 0 1 ⟨true, 0⟩, Call.waitForRelease 1 300,
           Call.handleKey 0 1 ⟨false, 300⟩] :=
  ⟨rfl, rfl, rfl, rfl, rfl, rfl,
   (press_release_split cOne envPlain 1 1 0 0 300 300 rfl rfl rfl rfl rfl rfl rfl).1⟩

/-- Counterexample to C5 as stated: module 0 owns key 1, is not failed,
no overlay is active, yet its `HandleKey` is invoked exactly once for the
interaction (not twice), because the press invocation returns an error
and the dispatch aborts before the release sub-event. -/
theorem press_release_split_counterexample :
    cOne.getActiveOverlay envPressErr = none ∧
      cOne.keyOwners 1 = some 0 ∧ cOne.isFailed 0 = false ∧
      ((cOne.dispatchKey envPressErr 1 300).1.filter Call.isHandleKey).length = 1 ∧
      ((cOne.dispatchKey envPressErr 1 300).1.filter Call.isHandleKey).length ≠ 2 := by
  refine ⟨rfl, rfl, rfl, rfl, ?_⟩
  decide

/-- Claim C2: After `Start`'s setup, exactly the registered modules whose
`Init` errored are marked failed.  A failed module is never returned as
the active overlay provider and receives no `HandleKey`, `HandleDial`,
`HandleStripTouch`, `RenderKeys`, `RenderStrip` (or overlay) invocation
from any event dispatch or render tick, while a non-failed module does
receive `RenderKeys` each overlay-free tick and `HandleKey` for presses
on keys it owns. -/
theorem init_failure_excludes (c0 : Coordinator) (env : List ModuleSpec) (dev : Device)
    (c : Coordinator) (h0 : c0.failedModules = []) (hc : c = c0.startSetup dev env) :
    (∀ i, c.isFailed i = true ↔ (i ∈ c0.modules ∧ (specAt env i).initErr = true)) ∧
      (∀ i, c.isFailed i = true →
        c.getActiveOverlay env ≠ some i ∧
        (∀ key dur, ∀ x ∈ (c.dispatchKey env key dur).1, x.invokesModule i = false) ∧
        (∀ dial delta, ∀ x ∈ (c.dispatchDialRotate env dial delta).1,
          x.invokesModule i = false) ∧
        (∀ dial dur, ∀ x ∈ (c.dispatchDialSwitch env dial dur).1,
          x.invokesModule i = false) ∧
        (∀ ev, ∀ x ∈ (c.dispatchStripTouch env ev).1, x.invokesModule i = false) ∧
        (∀ x ∈ (c.renderTick env dev).1, x.invokesModule i = false)) ∧
      (∀ i, i ∈ c0.modules → c.isFailed i = false →
        (c.getActiveOverlay env = none →
          Call.renderKeysCall i ∈ (c.renderKeys env dev).1) ∧
        (∀ key dur, c.getActiveOverlay env = none → c.keyOwners key = some i →
          Call.handleKey i key ⟨true, 0⟩ ∈ (c.dispatchKey env key dur).1)) := by
  subst hc
  have hmods := (startSetup_preserves dev env c0).1
  refine ⟨?_, ?_, ?_⟩
  · intro i
    unfold Coordinator.isFailed
    rw [startSetup_failedModules, h0]
    simp [List.mem_filter]
  · intro i hf
    refine ⟨getActiveOverlay_not_failed _ env i hf, ?_, ?_, ?_, ?_, ?_⟩
    · intro key dur
      exact dispatchKey_excludes_failed _ env key dur i hf
    · intro dial delta
      exact dispatchDialRotate_excludes_failed _ env dial delta i hf
    · intro dial dur
      exact dispatchDialSwitch_excludes_failed _ env dial dur i hf
    · intro ev
      exact dispatchStripTouch_excludes_failed _ env ev i hf
    · intro x hx
      rcases List.mem_append.mp hx with hx | hx
      · exact renderKeys_excludes_failed _ env dev i hf x hx
      · have hf2 : ((c0.startSetup dev env).renderKeys env dev).2.isFailed i = true := by
          unfold Coordinator.isFailed
          rw [(renderKeys_state _ env dev).1]
          exact hf
        exact renderStrip_excludes_failed _ env i hf2 x hx
  · intro i hi hf
    refine ⟨?_, ?_⟩
    · intro hov
      exact renderKeysCall_mem_of_ok _ env dev i hov (hmods ▸ hi) hf
    · intro key dur hov ho
      exact dispatchKey_owner_press _ env key dur i hov ho hf

theorem init_failure_excludes_witness :
    cInitPre.failedModules = [] ∧ cInitStarted = cInitPre.startSetup devS envInit ∧
      (cInitStarted.isFailed 0 = true ↔
        (0 ∈ cInitPre.modules ∧ (specAt envInit 0).initErr = true)) ∧
      cInitStarted.isFailed 0 = true ∧ cInitStarted.isFailed 1 = false :=
  ⟨rfl, rfl, (init_failure_excludes cInitPre envInit devS cInitStarted rfl rfl).1 0,
   rfl, rfl⟩

/-- Claim C9: While an overlay is active, a render tick pushes only the
overlay's key images (recording the overlay-was-active flag for the next
tick) and performs no normal per-module render; on the first tick at
which no overlay is active after a tick at which one was, the
Coordinator first sets every physical key to the cleared (black) image
— before any normal per-module key render of that tick — and resets the
flag (provided the device's key-geometry query succeeds). -/
theorem overlay_render_transition (c : Coordinator) (env : List ModuleSpec) (dev : Device) :
    (∀ ov, c.getActiveOverlay env = some ov →
        (c.renderKeys env dev).1
          = Call.renderOverlayKeysCall ov :: pushKeyImages (specAt env ov).renderOverlayKeys ∧
        (c.renderKeys env dev).2.overlayWasActive = true ∧
        (∀ x ∈ (c.renderTick env dev).1, x.isNormalRender = false)) ∧
      (∀ r, c.getActiveOverlay env = none → c.overlayWasActive = true →
          dev.keyRect = some r →
        (∃ rest, (c.renderKeys env dev).1
            = (allKeys.map fun k => Call.setKeyImage k (Image.black r)) ++ rest) ∧
        (c.renderKeys env dev).2.overlayWasActive = false) := by
  constructor
  · intro ov hov
    have hpair := renderKeys_overlay c env dev ov hov
    refine ⟨by rw [hpair], by rw [hpair], ?_⟩
    intro x hx
    rcases List.mem_append.mp hx with hx | hx
    · rw [hpair] at hx
      rcases List.mem_cons.mp hx with rfl | hx
      · rfl
      · obtain ⟨k, img, rfl⟩ := mem_pushKeyImages _ _ hx
        rfl
    · have hov2 : (c.renderKeys env dev).2.getActiveOverlay env = some ov :=
        ((renderKeys_state c env dev).2.2.2.2).trans hov
      exact renderStrip_overlay_no_normal _ env ov hov2 x hx
  · intro r hov hwas hkr
    have hclears : Coordinator.clearAllKeys dev
        = allKeys.map fun k => Call.setKeyImage k (Image.black r) := by
      unfold Coordinator.clearAllKeys
      rw [hkr]
    simp only [Coordinator.renderKeys, hov, hwas, if_true, hclears]
    exact ⟨⟨_, rfl⟩, trivial⟩

theorem overlay_render_transition_witness :
    cOneStarted.getActiveOverlay envOv = some 0 ∧
      (cOneStarted.renderKeys envOv devS).2.overlayWasActive = true ∧
      cAfterOverlay.getActiveOverlay envPlain = none ∧
      cAfterOverlay.overlayWasActive = true ∧
      devS.keyRect = some ⟨0, 0, 120, 120⟩ ∧
      (∃ rest, (cAfterOverlay.renderKeys envPlain devS).1
          = (allKeys.map fun k => Call.setKeyImage k (Image.black ⟨0, 0, 120, 120⟩))
            ++ rest) ∧
      (cAfterOverlay.renderKeys envPlain devS).2.overlayWasActive = false := by
  have h1 := ((overlay_render_transition cOneStarted envOv devS).1 0 rfl).2.1
  have h2 := (overlay_render_transition cAfterOverlay envPlain devS).2
    ⟨0, 0, 120, 120⟩ rfl rfl rfl
  exact ⟨rfl, h1, rfl, rfl, rfl, h2.1, h2.2⟩

end Belowdeck
